import Mathlib

/-
Verification development for the customer-churn prediction front end
(src/app/app.py).  The app loads an opaque model bundle (classifier,
imputer, scaler, ordered column list), collects one numeric input per
column, assembles a single-row feature vector in column order, runs
impute -> scale -> predict, and appends each successful prediction to a
CSV history file.

Shallow embedding conventions:
* numeric values are rationals (ℚ);
* the Python dict `values` is an association list `List (String × ℚ)`
  whose entry order records the dict's insertion order;
* the opaque bundle members (`num_imputer.transform`,
  `num_scaler.transform`, `model.predict`, `model.predict_proba`) are
  fields of a `Bundle` structure returning `Option` (`none` = the call
  raises);
* the CSV history file is `Option Table` (`none` = file absent), with
  cells `Option ℚ` (`none` = NaN / empty cell);
* a raised Python exception in the button handler is an `err` field in
  the run result; when it is set the Streamlit script run aborts, so the
  prediction card and the history table further down the page are not
  rendered.
-/

namespace ChurnApp

/-- First-match lookup in an association list, as Python dict lookup
`values[c]` (dicts have unique keys, so first match is the match). -/
def lookupVal {α : Type} (c : String) : List (String × α) → Option α
  | [] => none
  | (k, v) :: rest => if k = c then some v else lookupVal c rest

/-- app.py line 171, `[values[c] for c in numeric_cols]`: read the value
of every column, left to right; a missing key raises `KeyError(c)` at
the first column `c` that has no value, modelled as `Except.error c`. -/
def assemble (values : List (String × ℚ)) : List String → Except String (List ℚ)
  | [] => Except.ok []
  | c :: rest =>
    match lookupVal c values with
    | none => Except.error c
    | some v =>
      match assemble values rest with
      | Except.error e => Except.error e
      | Except.ok xs => Except.ok (v :: xs)

/-- Specification helper: the first column of `cols` that has no value
in `values` — the column whose read raises `KeyError` in the
comprehension of app.py line 171, i.e. the name the error carries. -/
def firstMissing (values : List (String × ℚ)) : List String → Option String
  | [] => none
  | c :: rest =>
    match lookupVal c values with
    | none => some c
    | some _ => firstMissing values rest

/-- app.py lines 144-161: the dict `values` is built by iterating
`numeric_cols`, so its insertion order is the column order. `entry c` is
the number the user left in the widget for column `c`. -/
def mkValues (cols : List String) (entry : String → ℚ) : List (String × ℚ) :=
  cols.map (fun c => (c, entry c))

/-- A Streamlit `st.number_input` widget: its `min_value` bound (if any)
and its default value. -/
structure NumberInput where
  minValue : Option ℚ
  default : ℚ
  deriving DecidableEq

/-- `startsWith p s`: the character list `p` is an initial segment of `s`. -/
def startsWith : List Char → List Char → Bool
  | [], _ => true
  | _ :: _, [] => false
  | a :: p, b :: s => a == b && startsWith p s

/-- `hasSub p s`: `p` occurs as a contiguous run inside `s`. -/
def hasSub (p : List Char) : List Char → Bool
  | [] => startsWith p []
  | b :: s => startsWith p (b :: s) || hasSub p s

/-- Python `needle in haystack` on strings. -/
def strContains (haystack needle : String) : Bool :=
  hasSub needle.data haystack.data

/-- app.py lines 144-161: which widget the input loop creates for a
column. Every keyword branch passes `min_value=0.0`; the final `else`
branch (line 161) passes no `min_value` at all. -/
def widgetFor (col : String) : NumberInput :=
  if strContains col "Age" then ⟨some 0, 30⟩
  else if strContains col "Tenure" then ⟨some 0, 12⟩
  else if strContains col "Usage" then ⟨some 0, 10⟩
  else if strContains col "Support" then ⟨some 0, 1⟩
  else if strContains col "Delay" then ⟨some 0, 0⟩
  else if strContains col "Spend" then ⟨some 0, 500⟩
  else if strContains col "Interaction" then ⟨some 0, 7⟩
  else ⟨none, 0⟩

/-- A value the widget for `col` lets the user submit: `st.number_input`
enforces `min_value` when one is given and otherwise accepts any number. -/
def admissibleB (col : String) (v : ℚ) : Bool :=
  match (widgetFor col).minValue with
  | some m => decide (m ≤ v)
  | none => true

/-- The parsed history CSV: a header row of column names and data rows
of cells (`none` = empty cell / NaN). -/
structure Table where
  header : List String
  rows : List (List (Option ℚ))
  deriving DecidableEq

/-- The history store: `none` when `prediction_history.csv` is absent. -/
abbrev Store := Option Table

/-- pandas column union as performed by `pd.concat`: the existing
frame's columns followed by the new frame's extra columns in order. -/
def unionCols (h1 h2 : List String) : List String :=
  h1 ++ h2.filter (fun c => !(h1.contains c))

/-- Re-express a stored row (laid out along `oldHdr`) along `newHdr`;
columns absent from `oldHdr` become empty cells. -/
def realignRow (newHdr oldHdr : List String) (r : List (Option ℚ)) : List (Option ℚ) :=
  newHdr.map (fun c => Option.join (lookupVal c (oldHdr.zip r)))

/-- Lay the fresh record out along `hdr` (pandas aligns the appended
frame's columns to the concatenated header by name). -/
def alignRow (hdr : List String) (row : List (String × ℚ)) : List (Option ℚ) :=
  hdr.map (fun c => lookupVal c row)

/-- app.py lines 191-197: if the CSV exists, read it, concatenate the
one-row frame built from `row`, and rewrite the file; otherwise the file
is created from the one-row frame (header = `row`'s keys in insertion
order). -/
def appendHistory (store : Store) (row : List (String × ℚ)) : Table :=
  match store with
  | none => ⟨row.map Prod.fst, [row.map (fun p => some p.2)]⟩
  | some t =>
    let hdr := unionCols t.header (row.map Prod.fst)
    ⟨hdr, t.rows.map (realignRow hdr t.header) ++ [alignRow hdr row]⟩

/-- Reading the full history back (app.py lines 241-245): an absent
store reads as no rows at all; the function is total, so it never
raises. -/
def read_all (store : Store) : List (List (Option ℚ)) :=
  match store with
  | none => []
  | some t => t.rows

/-- The loaded model bundle: the ordered column list plus the four
opaque calls the handler makes. `none` models the call raising. -/
structure Bundle where
  numeric_cols : List String
  imputerT : List ℚ → Option (List ℚ)
  scalerT : List ℚ → Option (List ℚ)
  predictF : List ℚ → Option ℤ
  predictProba : List ℚ → Option (List ℚ)

/-- The exceptions a prediction attempt can raise, by stage. -/
inductive PipeError where
  | missingFeature (col : String)
  | transformError
  | predictError
  | persistenceError
  deriving DecidableEq

/-- app.py lines 171-183: assemble the vector, impute, scale, then take
`model.predict(X)[0]` and `model.predict_proba(X)[0][1]` (the class-1,
i.e. churn, probability). The first raising step aborts the attempt. -/
def pipelineCompute (b : Bundle) (values : List (String × ℚ)) : Except PipeError (ℤ × ℚ) :=
  match assemble values b.numeric_cols with
  | Except.error c => Except.error (PipeError.missingFeature c)
  | Except.ok x =>
    match b.imputerT x with
    | none => Except.error PipeError.transformError
    | some xi =>
      match b.scalerT xi with
      | none => Except.error PipeError.transformError
      | some xsc =>
        match b.predictF xsc with
        | none => Except.error PipeError.predictError
        | some pred =>
          match b.predictProba xsc with
          | none => Except.error PipeError.predictError
          | some ps =>
            match ps.get? 1 with
            | none => Except.error PipeError.predictError
            | some proba => Except.ok (pred, proba)

/-- app.py lines 187-189: `row = values.copy()`, then the label (as an
integer) and the probability are appended under `Prediction` and
`Churn_Probability`. -/
def historyRecord (values : List (String × ℚ)) (pred : ℤ) (proba : ℚ) : List (String × ℚ) :=
  values ++ [("Prediction", (pred : ℚ)), ("Churn_Probability", proba)]

/-- What `hist.to_csv` does on this run. `to_csv` opens the file in
write mode, truncating it before writing, so a raising write (e.g.
filesystem full) leaves whatever partial contents the interrupted
truncate-and-write produced — modelled as an arbitrary `leftover`
store state, not necessarily the previous contents. -/
inductive WriteOutcome where
  | succeeds
  | fails (leftover : Store)

/-- Outcome of one button-press run of the script. `result` is the
in-memory pair `(pred, proba)` (set together with `prediction_made`);
`store` is the history file afterwards; `savedNotice` is the
`st.info` confirmation; `err` is the exception that aborted the run, if
any. -/
structure RunResult where
  result : Option (ℤ × ℚ)
  store : Store
  savedNotice : Bool
  err : Option PipeError
  deriving DecidableEq

/-- app.py lines 169-198, the `Predict Churn` button handler: run the
pipeline; on success set `pred`, `proba`, `prediction_made`, build the
history record and rewrite the CSV. A raising `hist.to_csv`
(`WriteOutcome.fails leftover`) propagates out of the handler and
leaves the file holding `leftover` — the partial contents of the
interrupted truncate-and-write. A pipeline error raises before line
197 runs, so there the file genuinely keeps its previous contents. -/
def runHandler (b : Bundle) (values : List (String × ℚ)) (store : Store)
    (w : WriteOutcome) : RunResult :=
  match pipelineCompute b values with
  | Except.error e => ⟨none, store, false, some e⟩
  | Except.ok (pred, proba) =>
    let newTable := appendHistory store (historyRecord values pred proba)
    match w with
    | WriteOutcome.succeeds => ⟨some (pred, proba), some newTable, true, none⟩
    | WriteOutcome.fails leftover =>
      ⟨some (pred, proba), leftover, false, some PipeError.persistenceError⟩

/-- The prediction card (app.py lines 203-229): contents `(pred == 1,
proba)` drive the churn/no-churn text and the probability bar. It
renders only when the run reached it, i.e. raised no exception. -/
def renderCard (r : RunResult) : Option (Bool × ℚ) :=
  match r.err with
  | some _ => none
  | none =>
    match r.result with
    | some (pred, proba) => some (pred == 1, proba)
    | none => none

/-- The sklearn classifier contract assumed of the opaque bundle: a
binary classifier returns labels in {0, 1} and probability rows whose
entries lie in [0, 1]. -/
def ClassifierOK (b : Bundle) : Prop :=
  (∀ x l, b.predictF x = some l → l = 0 ∨ l = 1) ∧
  (∀ x ps, b.predictProba x = some ps → ∀ p ∈ ps, 0 ≤ p ∧ p ≤ 1)

/-- Well-formedness of a parsed history CSV: distinct column names and
rectangular rows. -/
def TableWF (t : Table) : Prop :=
  t.header.Nodup ∧ ∀ r ∈ t.rows, r.length = t.header.length

/-- A concrete bundle for witnesses: the spec's scenario bundle with
identity transforms and a classifier that answers label 1 with
probability row [0.18, 0.82]. -/
def idBundle : Bundle where
  numeric_cols := ["Age", "Tenure", "Usage"]
  imputerT := fun x => some x
  scalerT := fun x => some x
  predictF := fun _ => some 1
  predictProba := fun _ => some [9/50, 41/50]

/-- A bundle whose imputer always raises, for the failure witnesses. -/
def failBundle : Bundle where
  numeric_cols := ["Age"]
  imputerT := fun _ => none
  scalerT := fun x => some x
  predictF := fun _ => some 0
  predictProba := fun _ => some [1/2, 1/2]

/-- The scenario input record Age=45, Tenure=2, Usage=1. -/
def scenarioValues : List (String × ℚ) :=
  [("Age", 45), ("Tenure", 2), ("Usage", 1)]

/- ------------------------------------------------------------------
Helper lemmas (shared).
------------------------------------------------------------------ -/

theorem lookupVal_eq_none {α : Type} (c : String) (l : List (String × α)) :
    lookupVal c l = none ↔ c ∉ l.map Prod.fst := by
  induction l with
  | nil => simp [lookupVal]
  | cons p rest ih =>
    simp only [lookupVal, List.map_cons, List.mem_cons]
    by_cases h : p.1 = c
    · simp [h, eq_comm]
    · have h2 : ¬ c = p.1 := fun hc => h hc.symm
      simp [h, h2, ih]

theorem lookupVal_perm {α : Type} (c : String) (l₁ l₂ : List (String × α))
    (hperm : l₁.Perm l₂) (hnd : (l₁.map Prod.fst).Nodup) :
    lookupVal c l₁ = lookupVal c l₂ := by
  induction hperm with
  | nil => rfl
  | cons x h ih =>
    simp only [List.map_cons, List.nodup_cons] at hnd
    simp only [lookupVal]
    by_cases hx : x.1 = c
    · simp [hx]
    · simp [hx, ih hnd.2]
  | swap x y l =>
    simp only [List.map_cons, List.nodup_cons, List.mem_cons] at hnd
    have hxy : y.1 ≠ x.1 := fun h => hnd.1 (Or.inl h)
    simp only [lookupVal]
    by_cases hy : y.1 = c
    · have hx : ¬ x.1 = c := fun h => hxy (hy.trans h.symm)
      simp [hy, hx]
    · simp [hy]
  | trans h1 h2 ih1 ih2 =>
    have hnd2 : _ := (h1.map Prod.fst).nodup hnd
    exact (ih1 hnd).trans (ih2 hnd2)

theorem assemble_congr (v₁ v₂ : List (String × ℚ)) (cols : List String)
    (h : ∀ c ∈ cols, lookupVal c v₁ = lookupVal c v₂) :
    assemble v₁ cols = assemble v₂ cols := by
  induction cols with
  | nil => rfl
  | cons c rest ih =>
    simp only [assemble]
    rw [h c (List.mem_cons_self c rest),
      ih (fun d hd => h d (List.mem_cons_of_mem c hd))]

theorem assemble_ok_spec (v : List (String × ℚ)) (cols : List String) (xs : List ℚ)
    (hok : assemble v cols = Except.ok xs) :
    xs.length = cols.length ∧ ∀ i c, cols.get? i = some c → xs.get? i = lookupVal c v := by
  induction cols generalizing xs with
  | nil =>
    simp only [assemble] at hok
    obtain rfl : ([] : List ℚ) = xs := by
      simpa using hok
    exact ⟨rfl, fun i c hc => by simp at hc⟩
  | cons c rest ih =>
    simp only [assemble] at hok
    cases hl : lookupVal c v with
    | none => rw [hl] at hok; cases hok
    | some val =>
      rw [hl] at hok
      cases ha : assemble v rest with
      | error e => rw [ha] at hok; cases hok
      | ok ys =>
        rw [ha] at hok
        obtain rfl : val :: ys = xs := by simpa using hok
        obtain ⟨hlen, hidx⟩ := ih ys ha
        refine ⟨by simp [hlen], fun i d hd => ?_⟩
        cases i with
        | zero =>
          simp only [List.get?] at hd ⊢
          obtain rfl : c = d := by simpa using hd
          simp [hl]
        | succ j =>
          simp only [List.get?] at hd ⊢
          exact hidx j d hd

theorem lookupVal_cons_ne {α : Type} (d c : String) (x : α) (l : List (String × α))
    (h : c ≠ d) : lookupVal d ((c, x) :: l) = lookupVal d l := by
  simp [lookupVal, h]

theorem unionCols_self (hdr : List String) : unionCols hdr hdr = hdr := by
  simp only [unionCols]
  rw [List.filter_eq_nil_iff.mpr (fun c hc => by simp [List.elem_eq_mem, hc]),
    List.append_nil]

theorem realignRow_self (hdr : List String) (r : List (Option ℚ))
    (hnd : hdr.Nodup) (hlen : r.length = hdr.length) :
    realignRow hdr hdr r = r := by
  induction hdr generalizing r with
  | nil =>
    rw [List.length_nil, List.length_eq_zero] at hlen
    subst hlen; rfl
  | cons c hs ih =>
    cases r with
    | nil => simp at hlen
    | cons x rs =>
      simp only [List.length_cons, Nat.succ.injEq] at hlen
      simp only [List.nodup_cons] at hnd
      simp only [realignRow, List.zip_cons_cons, List.map_cons]
      congr 1
      · simp [lookupVal]
      · rw [List.map_congr_left (fun d hd =>
          congrArg Option.join (lookupVal_cons_ne d c x (hs.zip rs)
            (fun hdc => hnd.1 (by rw [hdc]; exact hd))))]
        exact ih rs hnd.2 hlen

theorem alignRow_self (row : List (String × ℚ))
    (hnd : (row.map Prod.fst).Nodup) :
    alignRow (row.map Prod.fst) row = row.map (fun p => some p.2) := by
  induction row with
  | nil => rfl
  | cons q rest ih =>
    simp only [List.map_cons, List.nodup_cons] at hnd
    simp only [alignRow, List.map_cons]
    congr 1
    · simp [lookupVal]
    · rw [List.map_congr_left (fun d hd =>
        lookupVal_cons_ne d q.1 q.2 rest (fun hdc => hnd.1 (by rw [hdc]; exact hd)))]
      exact ih hnd.2

/- ------------------------------------------------------------------
Claim theorems.
------------------------------------------------------------------ -/

/-- C6: reading the history back when the backing store does not exist
returns the empty sequence; `read_all` is a total function, so no
error can be raised. -/
theorem read_all_missing_store : read_all none = [] := rfl

/-- C8: if the input mapping lacks a value for some name in
`feature_order` — equivalently, `firstMissing` finds a column `c` with
no value — the assembly step of app.py line 171 fails with an error
naming that missing column (`KeyError(c)`), which the spec calls
`MissingFeature`. -/
theorem assemble_missing_feature (v : List (String × ℚ)) (cols : List String) (c : String)
    (h : firstMissing v cols = some c) :
    assemble v cols = Except.error c ∧ c ∈ cols ∧ lookupVal c v = none := by
  induction cols with
  | nil => cases h
  | cons d rest ih =>
    simp only [firstMissing] at h
    cases hl : lookupVal d v with
    | none =>
      rw [hl] at h
      obtain rfl : d = c := by simpa using h
      exact ⟨by simp [assemble, hl], List.mem_cons_self d rest, hl⟩
    | some val =>
      rw [hl] at h
      obtain ⟨herr, hmem, hnone⟩ := ih h
      refine ⟨?_, List.mem_cons_of_mem d hmem, hnone⟩
      simp [assemble, hl, herr]

/-- Witness for C8 at the record {Tenure: 2} and columns
[Age, Tenure]: assembly fails naming Age. -/
theorem assemble_missing_feature_witness :
    assemble [("Tenure", (2 : ℚ))] ["Age", "Tenure"] = Except.error "Age" ∧
    "Age" ∈ ["Age", "Tenure"] ∧ lookupVal "Age" [("Tenure", (2 : ℚ))] = none :=
  assemble_missing_feature [("Tenure", 2)] ["Age", "Tenure"] "Age" rfl

/-- C1: the assembled single-row feature vector (app.py line 171, the
vector then handed to `num_imputer.transform`, `num_scaler.transform`
and the classifier in lines 174-183) lists values in exactly
`numeric_cols` (feature_order) order: permuting the entries of the
input mapping leaves the vector unchanged, and the i-th coordinate is
the value stored under the i-th feature name. -/
theorem assembled_vector_follows_feature_order
    (v₁ v₂ : List (String × ℚ)) (cols : List String)
    (hperm : v₁.Perm v₂) (hnd : (v₁.map Prod.fst).Nodup)
    (xs : List ℚ) (hok : assemble v₁ cols = Except.ok xs) :
    assemble v₂ cols = Except.ok xs ∧
    xs.length = cols.length ∧
    ∀ i c, cols.get? i = some c → xs.get? i = lookupVal c v₁ := by
  have hsame : assemble v₁ cols = assemble v₂ cols :=
    assemble_congr v₁ v₂ cols (fun c _ => lookupVal_perm c v₁ v₂ hperm hnd)
  obtain ⟨hlen, hidx⟩ := assemble_ok_spec v₁ cols xs hok
  exact ⟨hsame ▸ hok, hlen, hidx⟩

theorem runHandler_error (b : Bundle) (v : List (String × ℚ)) (s : Store)
    (w : WriteOutcome) (e : PipeError) (hp : pipelineCompute b v = Except.error e) :
    runHandler b v s w = ⟨none, s, false, some e⟩ := by
  unfold runHandler; rw [hp]

theorem runHandler_ok_writes (b : Bundle) (v : List (String × ℚ)) (s : Store)
    (pred : ℤ) (proba : ℚ) (hp : pipelineCompute b v = Except.ok (pred, proba)) :
    runHandler b v s WriteOutcome.succeeds =
      ⟨some (pred, proba), some (appendHistory s (historyRecord v pred proba)),
        true, none⟩ := by
  unfold runHandler; rw [hp]

theorem runHandler_ok_write_fails (b : Bundle) (v : List (String × ℚ)) (s L : Store)
    (pred : ℤ) (proba : ℚ) (hp : pipelineCompute b v = Except.ok (pred, proba)) :
    runHandler b v s (WriteOutcome.fails L) =
      ⟨some (pred, proba), L, false, some PipeError.persistenceError⟩ := by
  unfold runHandler; rw [hp]

/-- C3: appending a record whose fields match the store (the store
invariant of the spec; for an absent store there is nothing to match)
extends the read-back by exactly one row: the previous rows are
unchanged and in their original positions, and the last row carries the
record's values field-for-field. -/
theorem append_monotone (store : Store) (row : List (String × ℚ))
    (hwf : ∀ t, store = some t → TableWF t)
    (hkeys : ∀ t, store = some t → row.map Prod.fst = t.header) :
    read_all (some (appendHistory store row)) =
      read_all store ++ [row.map (fun p => some p.2)] ∧
    (read_all (some (appendHistory store row))).length = (read_all store).length + 1 ∧
    (read_all (some (appendHistory store row))).getLast? =
      some (row.map (fun p => some p.2)) := by
  have hmain : read_all (some (appendHistory store row)) =
      read_all store ++ [row.map (fun p => some p.2)] := by
    cases store with
    | none => simp [appendHistory, read_all]
    | some t =>
      obtain ⟨hnd, hrect⟩ := hwf t rfl
      have hk := hkeys t rfl
      simp only [appendHistory, read_all]
      rw [hk, unionCols_self]
      have h1 : t.rows.map (realignRow t.header t.header) = t.rows := by
        rw [List.map_congr_left
          (fun r hr => realignRow_self t.header r hnd (hrect r hr))]
        simp
      have h2 : alignRow t.header row = row.map (fun p => some p.2) := by
        rw [← hk]
        exact alignRow_self row (by rw [hk]; exact hnd)
      rw [h1, h2]
  refine ⟨hmain, ?_, ?_⟩
  · rw [hmain]; simp
  · rw [hmain]; exact List.getLast?_concat _

/-- Witness for C3: appending {Age: 3} to the one-row store
(header Age, row [7]) yields rows [[7], [3]]. -/
theorem append_monotone_witness :
    read_all (some (appendHistory (some ⟨["Age"], [[some 7]]⟩) [("Age", (3 : ℚ))])) =
      [[some 7], [some 3]] ∧
    (read_all (some (appendHistory (some ⟨["Age"], [[some 7]]⟩)
      [("Age", (3 : ℚ))]))).length = 2 ∧
    (read_all (some (appendHistory (some ⟨["Age"], [[some 7]]⟩)
      [("Age", (3 : ℚ))]))).getLast? = some [some 3] := by
  have h := append_monotone (some ⟨["Age"], [[some 7]]⟩) [("Age", 3)]
    (fun t ht => by cases ht; exact ⟨by decide, by decide⟩)
    (fun t ht => by cases ht; rfl)
  exact ⟨h.1, h.2.1, h.2.2⟩

/-- C7: when the history file is absent, a fully successful prediction
run creates it with header `numeric_cols ++ [Prediction,
Churn_Probability]` and exactly one data row: the raw entered values in
column order followed by the predicted label and probability (and the
saved-notice is shown). -/
theorem first_prediction_creates_store (b : Bundle) (entry : String → ℚ) (l : ℤ) (p : ℚ)
    (hres : (runHandler b (mkValues b.numeric_cols entry) none
      WriteOutcome.succeeds).result = some (l, p)) :
    (runHandler b (mkValues b.numeric_cols entry) none WriteOutcome.succeeds).store =
      some ⟨b.numeric_cols ++ ["Prediction", "Churn_Probability"],
        [b.numeric_cols.map (fun c => some (entry c)) ++ [some (l : ℚ), some p]]⟩ ∧
    (runHandler b (mkValues b.numeric_cols entry) none
      WriteOutcome.succeeds).savedNotice = true := by
  cases hp : pipelineCompute b (mkValues b.numeric_cols entry) with
  | error e =>
    rw [runHandler_error b _ none WriteOutcome.succeeds e hp] at hres
    simp at hres
  | ok pr =>
    obtain ⟨pred, proba⟩ := pr
    rw [runHandler_ok_writes b _ none pred proba hp] at hres ⊢
    obtain ⟨rfl, rfl⟩ : pred = l ∧ proba = p := by
      simpa using hres
    refine ⟨?_, rfl⟩
    simp [appendHistory, historyRecord, mkValues, List.map_map, Function.comp_def]

/-- The scenario entries Age=45, Tenure=2, Usage=1 as a function of the
column name. -/
def scenarioEntry : String → ℚ :=
  fun c => if c = "Age" then 45 else if c = "Tenure" then 2 else 1

/-- Witness for C7: the scenario run on the identity bundle creates the
store with header Age, Tenure, Usage, Prediction, Churn_Probability and
the single row 45, 2, 1, 1, 0.82. -/
theorem first_prediction_creates_store_witness :
    (runHandler idBundle (mkValues idBundle.numeric_cols scenarioEntry) none
      WriteOutcome.succeeds).store =
      some ⟨["Age", "Tenure", "Usage", "Prediction", "Churn_Probability"],
        [[some 45, some 2, some 1, some 1, some (41/50)]]⟩ ∧
    (runHandler idBundle (mkValues idBundle.numeric_cols scenarioEntry) none
      WriteOutcome.succeeds).savedNotice = true := by
  have h := first_prediction_creates_store idBundle scenarioEntry 1 (41/50) rfl
  exact ⟨h.1.trans (by rfl), h.2⟩

/-- Witness for C1: the scenario mapping and a reordering of it both
assemble to [45, 2, 1] on columns [Age, Tenure, Usage]. -/
theorem assembled_vector_follows_feature_order_witness :
    assemble [("Tenure", 2), ("Age", 45), ("Usage", 1)] ["Age", "Tenure", "Usage"] =
      Except.ok [45, 2, 1] ∧
    ([45, 2, 1] : List ℚ).length = (["Age", "Tenure", "Usage"] : List String).length := by
  have h := assembled_vector_follows_feature_order
    scenarioValues [("Tenure", 2), ("Age", 45), ("Usage", 1)]
    ["Age", "Tenure", "Usage"] (by decide) (by decide) [45, 2, 1] rfl
  exact ⟨h.1, h.2.1⟩

theorem pipelineCompute_ok_elim (b : Bundle) (v : List (String × ℚ)) (pred : ℤ) (proba : ℚ)
    (h : pipelineCompute b v = Except.ok (pred, proba)) :
    ∃ xsc ps, b.predictF xsc = some pred ∧ b.predictProba xsc = some ps ∧
      ps.get? 1 = some proba := by
  unfold pipelineCompute at h
  split at h
  · exact Except.noConfusion h
  · split at h
    · exact Except.noConfusion h
    · split at h
      · exact Except.noConfusion h
      · split at h
        · exact Except.noConfusion h
        · split at h
          · exact Except.noConfusion h
          · split at h
            · exact Except.noConfusion h
            · rename_i s1 x ha s2 xi hi s3 xsc hs s4 pr hpred s5 ps hps s6 pb hg
              obtain ⟨rfl, rfl⟩ : pr = pred ∧ pb = proba := by simpa using h
              exact ⟨xsc, ps, hpred, hps, hg⟩

theorem idBundle_classifier_ok : ClassifierOK idBundle := by
  constructor
  · intro x l h
    exact Or.inr (Option.some.inj h).symm
  · intro x ps h p hp
    have hps : [9/50, 41/50] = ps := Option.some.inj h
    rw [← hps] at hp
    simp only [List.mem_cons, List.mem_singleton, List.not_mem_nil, or_false] at hp
    rcases hp with rfl | rfl <;> constructor <;> norm_num

theorem assocList_ext {α : Type} (v₁ v₂ : List (String × α))
    (hkeys : v₁.map Prod.fst = v₂.map Prod.fst)
    (hnd : (v₁.map Prod.fst).Nodup)
    (hlook : ∀ c, lookupVal c v₁ = lookupVal c v₂) : v₁ = v₂ := by
  induction v₁ generalizing v₂ with
  | nil =>
    cases v₂ with
    | nil => rfl
    | cons q s => simp at hkeys
  | cons q rest ih =>
    obtain ⟨qk, qv⟩ := q
    cases v₂ with
    | nil => simp at hkeys
    | cons r s =>
      obtain ⟨rk, rv⟩ := r
      obtain ⟨hk1, hk2⟩ : qk = rk ∧ rest.map Prod.fst = s.map Prod.fst := by
        simpa using hkeys
      simp only [List.map_cons, List.nodup_cons] at hnd
      have hval : qv = rv := by
        have hq := hlook qk
        rw [← hk1] at hq
        simpa [lookupVal] using hq
      have htail : ∀ c, lookupVal c rest = lookupVal c s := by
        intro c
        by_cases hc : c = qk
        · subst hc
          have h1 : lookupVal c rest = none := (lookupVal_eq_none c rest).mpr hnd.1
          have h2 : lookupVal c s = none :=
            (lookupVal_eq_none c s).mpr (by rw [← hk2]; exact hnd.1)
          rw [h1, h2]
        · have hq := hlook c
          rw [lookupVal_cons_ne c qk qv rest (fun hqc => hc hqc.symm)] at hq
          rw [lookupVal_cons_ne c rk rv s
            (fun hrc => hc (hrc.symm.trans hk1.symm))] at hq
          exact hq
      rw [hk1, hval, ih s hk2 hnd.2 htail]

/-- C2: whenever a button-press run produces a prediction result and
the opaque classifier obeys the sklearn binary-classifier contract
(labels in {0, 1}, probability rows within [0, 1]), the label shown is
0 or 1, the probability lies in [0.0, 1.0], and it is the entry at
index 1 (the positive/churn class) of a probability row returned by
`model.predict_proba` (app.py lines 182-183). -/
theorem prediction_output_guarantee (b : Bundle) (v : List (String × ℚ)) (s : Store)
    (w : WriteOutcome) (hcls : ClassifierOK b)
    (_hvalid : ∀ c ∈ b.numeric_cols, ∃ x, lookupVal c v = some x ∧ 0 ≤ x)
    (l : ℤ) (p : ℚ)
    (hres : (runHandler b v s w).result = some (l, p)) :
    (l = 0 ∨ l = 1) ∧ (0 ≤ p ∧ p ≤ 1) ∧
    ∃ z ps, b.predictProba z = some ps ∧ ps.get? 1 = some p := by
  cases hp : pipelineCompute b v with
  | error e =>
    rw [runHandler_error b v s w e hp] at hres
    simp at hres
  | ok pr =>
    obtain ⟨pred, proba⟩ := pr
    have hres2 : some (pred, proba) = some (l, p) := by
      cases w with
      | succeeds =>
        rw [runHandler_ok_writes b v s pred proba hp] at hres
        simpa using hres
      | fails L =>
        rw [runHandler_ok_write_fails b v s L pred proba hp] at hres
        simpa using hres
    obtain ⟨h1, h2⟩ : pred = l ∧ proba = p := by simpa using hres2
    rw [← h1, ← h2]
    obtain ⟨xsc, ps, hpred, hproba, hget⟩ := pipelineCompute_ok_elim b v pred proba hp
    exact ⟨hcls.1 xsc pred hpred, hcls.2 xsc ps hproba proba (List.get?_mem hget),
      xsc, ps, hproba, hget⟩

/-- Witness for C2: the scenario run on the identity bundle returns
label 1 and probability 0.82, inside the guaranteed ranges. -/
theorem prediction_output_guarantee_witness :
    ((1 : ℤ) = 0 ∨ (1 : ℤ) = 1) ∧ (0 ≤ (41/50 : ℚ) ∧ (41/50 : ℚ) ≤ 1) := by
  have h := prediction_output_guarantee idBundle scenarioValues none
    WriteOutcome.succeeds idBundle_classifier_ok
    (by
      intro c hc
      fin_cases hc
      · exact ⟨45, rfl, by norm_num⟩
      · exact ⟨2, rfl, by norm_num⟩
      · exact ⟨1, rfl, by norm_num⟩)
    1 (41/50) rfl
  exact ⟨h.1, h.2.1⟩

/-- C4: a prediction attempt in which the imputer, scaler or classifier
call raises (`err` is a transform or predict error) aborts before the
persistence step of app.py lines 187-197: the history file is exactly
what it was before, no result is held and no saved-notice is shown. -/
theorem failed_attempt_persists_nothing (b : Bundle) (v : List (String × ℚ)) (s : Store)
    (w : WriteOutcome)
    (h : (runHandler b v s w).err = some PipeError.transformError ∨
         (runHandler b v s w).err = some PipeError.predictError) :
    (runHandler b v s w).store = s ∧ (runHandler b v s w).result = none ∧
    (runHandler b v s w).savedNotice = false := by
  cases hp : pipelineCompute b v with
  | error e =>
    rw [runHandler_error b v s w e hp]
    exact ⟨rfl, rfl, rfl⟩
  | ok pr =>
    obtain ⟨pred, proba⟩ := pr
    exfalso
    cases w with
    | succeeds =>
      rw [runHandler_ok_writes b v s pred proba hp] at h
      rcases h with h | h <;> simp at h
    | fails L =>
      rw [runHandler_ok_write_fails b v s L pred proba hp] at h
      rcases h with h | h <;> simp at h

/-- Witness for C4: on the bundle whose imputer raises, a run against a
one-row store leaves the store exactly as it was. -/
theorem failed_attempt_persists_nothing_witness :
    (runHandler failBundle [("Age", (30 : ℚ))] (some ⟨["Age"], [[some 7]]⟩)
      WriteOutcome.succeeds).store = some ⟨["Age"], [[some 7]]⟩ ∧
    (runHandler failBundle [("Age", (30 : ℚ))] (some ⟨["Age"], [[some 7]]⟩)
      WriteOutcome.succeeds).result = none ∧
    (runHandler failBundle [("Age", (30 : ℚ))] (some ⟨["Age"], [[some 7]]⟩)
      WriteOutcome.succeeds).savedNotice = false :=
  failed_attempt_persists_nothing failBundle [("Age", 30)]
    (some ⟨["Age"], [[some 7]]⟩) WriteOutcome.succeeds (Or.inl rfl)

/-- C5 counterexample: in the scenario run with a failing history
write (here one that truncated the absent file to an empty leftover),
the classifier has succeeded (the in-memory result is label 1,
probability 0.82) and the write failure raises, but the exception is
uncaught (app.py line 197 has no handler), so the script run aborts and
the prediction card renders nothing: the result is NOT displayed,
contradicting the claim. -/
theorem persistence_failure_hides_result_cex :
    (runHandler idBundle scenarioValues none (WriteOutcome.fails none)).result =
      some (1, 41/50) ∧
    (runHandler idBundle scenarioValues none (WriteOutcome.fails none)).err =
      some PipeError.persistenceError ∧
    renderCard (runHandler idBundle scenarioValues none (WriteOutcome.fails none)) =
      none :=
  ⟨rfl, rfl, rfl⟩

/-- C5 amended: when the classifier succeeds but the history write
fails, the in-memory result has been computed, but the failure
propagates as an uncaught exception (`persistenceError` in `err`) that
aborts the page run, so the prediction card is not rendered — the
result is not shown to the user. The file is left with whatever
contents the interrupted truncate-and-write produced (`leftover`,
possibly a partial file), not necessarily its previous contents. -/
theorem persistence_failure_aborts_render (b : Bundle) (v : List (String × ℚ))
    (s L : Store) (l : ℤ) (p : ℚ)
    (hres : (runHandler b v s (WriteOutcome.fails L)).result = some (l, p)) :
    (runHandler b v s (WriteOutcome.fails L)).err = some PipeError.persistenceError ∧
    (runHandler b v s (WriteOutcome.fails L)).store = L ∧
    renderCard (runHandler b v s (WriteOutcome.fails L)) = none := by
  cases hp : pipelineCompute b v with
  | error e =>
    rw [runHandler_error b v s (WriteOutcome.fails L) e hp] at hres
    simp at hres
  | ok pr =>
    obtain ⟨pred, proba⟩ := pr
    rw [runHandler_ok_write_fails b v s L pred proba hp]
    exact ⟨rfl, rfl, rfl⟩

/-- Witness for the amended C5 at the scenario run, with the
interrupted write leaving an empty (absent) file. -/
theorem persistence_failure_aborts_render_witness :
    (runHandler idBundle scenarioValues none (WriteOutcome.fails none)).err =
      some PipeError.persistenceError ∧
    (runHandler idBundle scenarioValues none (WriteOutcome.fails none)).store = none ∧
    renderCard (runHandler idBundle scenarioValues none (WriteOutcome.fails none)) =
      none :=
  persistence_failure_aborts_render idBundle scenarioValues none none 1 (41/50) rfl

/-- C9 counterexample: a column whose name contains none of the seven
keywords of the input loop falls into the `else` branch of app.py line
161, whose `st.number_input` has no `min_value`; the widget therefore
admits a negative entry such as -5, contradicting the claim that every
input field enforces a minimum of 0. -/
theorem unmatched_column_allows_negative_cex :
    (widgetFor "CustomerID").minValue = none ∧
    admissibleB "CustomerID" (-5) = true ∧ ((-5 : ℚ) < 0) :=
  ⟨rfl, rfl, by norm_num⟩

/-- C9 amended: every input field whose column name contains one of the
keywords Age, Tenure, Usage, Support, Delay, Spend, Interaction is
created with `min_value=0`, so any value it admits is non-negative; a
column matching no keyword gets a field with no minimum and its value
can be negative. -/
theorem keyword_inputs_nonneg (col : String) (v : ℚ)
    (hcol : strContains col "Age" = true ∨ strContains col "Tenure" = true ∨
      strContains col "Usage" = true ∨ strContains col "Support" = true ∨
      strContains col "Delay" = true ∨ strContains col "Spend" = true ∨
      strContains col "Interaction" = true)
    (hadm : admissibleB col v = true) : 0 ≤ v := by
  have hmin : (widgetFor col).minValue = some 0 := by
    unfold widgetFor
    split_ifs <;> simp_all
  unfold admissibleB at hadm
  rw [hmin] at hadm
  exact of_decide_eq_true hadm

/-- Witness for the amended C9 at the Age field with entry 30. -/
theorem keyword_inputs_nonneg_witness :
    admissibleB "Age" 30 = true ∧ (0 : ℚ) ≤ 30 :=
  ⟨rfl, keyword_inputs_nonneg "Age" 30 (Or.inl rfl) rfl⟩

/-- C10: the button handler is deterministic. Two runs with the same
loaded bundle, the same history store, the same write behaviour and
equal input mappings (same keys in the same dict order, same values)
produce identical run results: same label, same probability, same
appended history rows. -/
theorem handler_deterministic (b : Bundle) (v₁ v₂ : List (String × ℚ)) (s : Store)
    (w : WriteOutcome)
    (hkeys : v₁.map Prod.fst = v₂.map Prod.fst)
    (hnd : (v₁.map Prod.fst).Nodup)
    (hlook : ∀ c, lookupVal c v₁ = lookupVal c v₂) :
    runHandler b v₁ s w = runHandler b v₂ s w := by
  rw [assocList_ext v₁ v₂ hkeys hnd hlook]

/-- Witness for C10 at the scenario input. -/
theorem handler_deterministic_witness :
    runHandler idBundle scenarioValues none WriteOutcome.succeeds =
      runHandler idBundle scenarioValues none WriteOutcome.succeeds :=
  handler_deterministic idBundle scenarioValues scenarioValues none
    WriteOutcome.succeeds rfl (by decide) (fun c => rfl)

end ChurnApp
